import Mathlib

/-!
Verification of the A2A task-processing core (`a2a/core/a2a_ollama.py`,
`a2a/core/task_manager.py`, `a2a/core/agent_card.py`) against its
natural-language specification.

The Python source is shallowly embedded: each class becomes a structure,
each method a pure function threading the state explicitly.  Opaque
caller-supplied payloads (task `params`, parsed JSON parameter objects,
tool result payloads) are type parameters `Pm`, `J`, `R`.  External
collaborators (the Ollama client, `json.loads` / `json.dumps`, the
uuid generator) are fields of an `Env` record supplied to the embedded
code; library calls the source makes become applications of those fields.
-/

namespace A2A

/-- A task record as built by `TaskManager.create_task`: id, lifecycle
status, two timestamps and the opaque caller-supplied params mapping. -/
structure Task (Pm : Type) where
  id : String
  status : String
  created_at : String
  updated_at : String
  params : Pm
  deriving DecidableEq

/-- State of `TaskManager`: the `self.tasks` dict, embedded as an
association list keyed by task id (a Python dict has unique keys), plus
the optional MCP bridge flag probed by `_process_task`.

The `mcp_bridge` field is Modelled from the spec: the MCP-capable
`TaskManager` draft (attributes `mcp_bridge`, `_can_use_mcp_for_task`,
`process_task`) is absent from the sources — only `a2a_ollama.py` probes
it.  Spec §2/§9 treat it as an optional collaborator ("alternate
task-manager-mediated tool bridge present/absent"); it is modelled as a
flag which, when set, makes `_process_task` delegate to the external MCP
processor instead of running the normal path. -/
structure TaskManager (Pm : Type) where
  tasks : List (String × Task Pm)
  mcp_bridge : Bool
  deriving DecidableEq

/-- The six recognized statuses, exactly the `valid_statuses` list of
`TaskManager.update_task_status`. -/
def validStatuses : List String :=
  ["submitted", "working", "input-required", "completed", "failed", "canceled"]

/-- `TaskManager.get_task`: dict lookup, `None` when absent. -/
def get_task {Pm : Type} (tm : TaskManager Pm) (task_id : String) : Option (Task Pm) :=
  (tm.tasks.find? (fun p => p.1 = task_id)).map (·.2)

/-- `TaskManager.update_task_status`: reject when the id is unknown,
reject when the status is not in the recognized enumeration, otherwise
overwrite the record's `status` and `updated_at` in place.  `now` stands
for `datetime.utcnow().isoformat()` at the time of the call. -/
def update_task_status {Pm : Type} (tm : TaskManager Pm) (now task_id status : String) :
    Bool × TaskManager Pm :=
  if (tm.tasks.find? (fun p => p.1 = task_id)).isNone then
    (false, tm)
  else if status ∈ validStatuses then
    (true,
      { tm with
        tasks := tm.tasks.map (fun p =>
          if p.1 = task_id then (p.1, { p.2 with status := status, updated_at := now })
          else p) })
  else
    (false, tm)

/-- The stored status of a task, read back through `get_task`. -/
def task_status {Pm : Type} (tm : TaskManager Pm) (task_id : String) : Option String :=
  (get_task tm task_id).map (·.status)

/-! ## Tool-call extraction (`A2AOllama._extract_tool_calls`)

The source scans the reply with
`re.finditer` over the pattern (written here with escaped braces)
`\x7b\s*"name"\s*:\s*"([^"]*)"\s*,\s*"parameters"\s*:\s*(\x7b[^\x7d]*\x7d)\s*\x7d`
and `json.loads`-parses each parameters group, dropping a match whose
parse raises.  Each quantified fragment of the pattern is followed by a
character the fragment itself cannot match (`\s*` by a non-space literal,
`[^"]*` by `"`, `[^\x7d]*` by `\x7d`), so greedy matching never
backtracks and the regex is equivalent to the deterministic scanner
below. -/

/-- An opening curly brace. -/
def lbrace : Char := Char.ofNat 123

/-- A closing curly brace. -/
def rbrace : Char := Char.ofNat 125

/-- Python `\s` on the ASCII range (space, tab, newline, carriage return,
vertical tab, form feed); the replies involved are ASCII. -/
def isPyWs (c : Char) : Bool :=
  c = ' ' || c = '\t' || c = '\n' || c = '\r' || c = Char.ofNat 11 || c = Char.ofNat 12

/-- Model of `\s*`: drop the maximal whitespace prefix. -/
def skipWs (cs : List Char) : List Char := cs.dropWhile isPyWs

/-- Match a literal character sequence, returning the rest of the input. -/
def expectLit : List Char → List Char → Option (List Char)
  | [], cs => some cs
  | _ :: _, [] => none
  | p :: ps, c :: cs => if c = p then expectLit ps cs else none

/-- Consume the maximal run of characters different from `stop`, then
`stop` itself; fail if `stop` never occurs.  Models the regex fragments
`([^"]*)"` and `[^\x7d]*\x7d`. -/
def takeThrough (stop : Char) (cs : List Char) : Option (List Char × List Char) :=
  match cs.dropWhile (fun c => c ≠ stop) with
  | [] => none
  | _ :: rest => some (cs.takeWhile (fun c => c ≠ stop), rest)

/-- Attempt the tool-call pattern immediately after its opening brace,
returning the two capture groups (name, parameters object including its
braces) and the remaining input. -/
def matchAfterBrace (cs : List Char) : Option (String × String × List Char) := do
  let cs ← expectLit ("\"name\"".toList) (skipWs cs)
  let cs ← expectLit [':'] (skipWs cs)
  let cs ← expectLit ['"'] (skipWs cs)
  let (nm, cs) ← takeThrough '"' cs
  let cs ← expectLit [','] (skipWs cs)
  let cs ← expectLit ("\"parameters\"".toList) (skipWs cs)
  let cs ← expectLit [':'] (skipWs cs)
  let cs ← expectLit [lbrace] (skipWs cs)
  let (inner, cs) ← takeThrough rbrace cs
  let cs2 ← expectLit [rbrace] (skipWs cs)
  some (String.mk nm, String.mk (lbrace :: (inner ++ [rbrace])), cs2)

/-- One pass of `re.finditer`: at each position try the pattern (whose
first character is the literal opening brace), emit the captures of a
match and resume after it, otherwise advance one character.  `fuel`
bounds the recursion; every step consumes at least one input character,
so starting with `fuel = cs.length` reproduces the unbounded scan. -/
def scanToolCalls : Nat → List Char → List (String × String)
  | 0, _ => []
  | _ + 1, [] => []
  | fuel + 1, c :: rest =>
    if c = lbrace then
      match matchAfterBrace rest with
      | some (nm, ps, rest2) => (nm, ps) :: scanToolCalls fuel rest2
      | none => scanToolCalls fuel rest
    else scanToolCalls fuel rest

/-- The `(name group, parameters group)` list `re.finditer` yields on
`content` for the tool-call pattern. -/
def toolCallMatches (content : String) : List (String × String) :=
  scanToolCalls content.toList.length content.toList

/-- A tool call as built by `_extract_tool_calls`: the name capture and
the `json.loads` result on the parameters capture (`J` is the type of
parsed JSON values, opaque to the core). -/
structure ToolCall (J : Type) where
  name : String
  parameters : J
  deriving DecidableEq

/-- The accumulation loop of `_extract_tool_calls`: walk the matches,
appending the parsed ones to `tool_calls` and silently skipping a match
whose parameters group fails to parse. -/
def extractLoop {J : Type} (jsonParse : String → Option J) :
    List (String × String) → List (ToolCall J) → List (ToolCall J)
  | [], acc => acc
  | m :: ms, acc =>
    match jsonParse m.2 with
    | some v => extractLoop jsonParse ms (acc ++ [⟨m.1, v⟩])
    | none => extractLoop jsonParse ms acc

/-- `A2AOllama._extract_tool_calls`, with `jsonParse` standing for
`json.loads` (`none` models a raised decode error). -/
def extract_tool_calls {J : Type} (jsonParse : String → Option J) (content : String) :
    List (ToolCall J) :=
  extractLoop jsonParse (toolCallMatches content) []

/-- A reply whose embedded tool-call JSON is missing its closing brace. -/
def malformedReply : String :=
  "Call \x7b\"name\": \"get_weather\", \"parameters\": \x7b\"location\": \"Paris\"\x7d"

/-! ## Agent card (`a2a/core/agent_card.py`)

Python passes card data as an untyped dict.  The embedding uses an
association list of `CardVal`s; the constructor's annotations type the
card's own fields (strings and a skills list of opaque payloads `Sk`),
and `dict.get`-style lookups return the supplied default both when the
key is absent — the only case `from_dict` meets on dicts produced by
`to_dict` — and on a payload of the other shape, which no card dict
built by this module contains. -/

/-- A value of an agent-card dictionary entry. -/
inductive CardVal (Sk : Type) where
  | str : String → CardVal Sk
  | skillList : List Sk → CardVal Sk
  deriving DecidableEq

/-- The `AgentCard` class: five fields, `version` defaulting to
"1.0.0" at construction. -/
structure AgentCard (Sk : Type) where
  name : String
  description : String
  endpoint : String
  skills : List Sk
  version : String
  deriving DecidableEq

/-- `data.get(key, default)` for a string-valued entry. -/
def getStr {Sk : Type} (d : List (String × CardVal Sk)) (k : String) (dflt : String) : String :=
  match d.find? (fun p => p.1 = k) with
  | some (_, .str s) => s
  | some (_, .skillList _) => dflt
  | none => dflt

/-- `data.get(key, default)` for a skills-valued entry. -/
def getSkills {Sk : Type} (d : List (String × CardVal Sk)) (k : String) (dflt : List Sk) :
    List Sk :=
  match d.find? (fun p => p.1 = k) with
  | some (_, .skillList l) => l
  | some (_, .str _) => dflt
  | none => dflt

/-- `AgentCard.to_dict`: the five fields plus the fixed protocol tag. -/
def AgentCard.to_dict {Sk : Type} (c : AgentCard Sk) : List (String × CardVal Sk) :=
  [("name", .str c.name),
   ("description", .str c.description),
   ("endpoint", .str c.endpoint),
   ("skills", .skillList c.skills),
   ("version", .str c.version),
   ("protocol", .str "a2a-1.0")]

/-- `AgentCard.from_dict`: read the five fields back with the source's
defaults, ignoring every other key. -/
def AgentCard.from_dict {Sk : Type} (d : List (String × CardVal Sk)) : AgentCard Sk :=
  { name := getStr d "name" ""
    description := getStr d "description" ""
    endpoint := getStr d "endpoint" ""
    skills := getSkills d "skills" []
    version := getStr d "version" "1.0.0" }

/-! ## Messages and the message store -/

/-- One content segment of a message: a `{type, content}` pair. -/
structure Part where
  type : String
  content : String
  deriving DecidableEq

/-- A conversation turn as stored by the message handler:
`{id, role, parts}`. -/
structure Message where
  id : String
  role : String
  parts : List Part
  deriving DecidableEq

/-- Modelled from the spec: `message_handler.py` is absent from the
sources (only its importer `a2a_ollama.py` is present).  Spec §4.2
specifies the MessageStore as an append-only per-task log whose
`list(task_id)` order is insertion order; the state is the log of
`(task_id, message)` insertions. -/
structure MessageHandler where
  messages : List (String × Message)
  deriving DecidableEq

/-- Modelled from the spec (§4.2): `add_message` appends the message to
the task's log. -/
def add_message (task_id : String) (m : Message) (mh : MessageHandler) : MessageHandler :=
  ⟨mh.messages ++ [(task_id, m)]⟩

/-- Modelled from the spec (§4.2): `get_messages` returns the task's
messages in insertion order. -/
def get_messages (task_id : String) (mh : MessageHandler) : List Message :=
  (mh.messages.filter (fun p => p.1 = task_id)).map (fun p => p.2)

/-- An Ollama-format turn `{role, content}` as built by
`_get_ollama_messages`. -/
structure Turn where
  role : String
  content : String
  deriving DecidableEq

/-- `_get_ollama_messages` body: concatenate the contents of the
text-type parts of one message. -/
def flattenParts (parts : List Part) : String :=
  parts.foldl (fun acc p => if p.type = "text" then acc ++ p.content else acc) ""

/-- `A2AOllama._get_ollama_messages`: one Ollama turn per stored message
of the task, role copied, content the flattened text parts. -/
def get_ollama_messages (task_id : String) (mh : MessageHandler) : List Turn :=
  (get_messages task_id mh).map (fun m => ⟨m.role, flattenParts m.parts⟩)

/-! ## The MCP tool bridge and the environment -/

/-- A parameter of an MCP tool description. -/
structure MCPParam where
  name : String
  required : Bool
  description : String

/-- An MCP tool description. -/
structure MCPTool where
  description : String
  parameters : List MCPParam

/-- One entry of the `tool_results` list: `{name, result, error}`;
`R` is the opaque type of tool result payloads. -/
structure ToolResultEntry (R : Type) where
  name : String
  result : Option R
  error : Option String
  deriving DecidableEq

/-- Modelled from the spec: `mcp/mcp_client.py` is absent from the
sources.  Spec §4.4 gives the ToolBridge contract the core consumes: a
registry of tool descriptions (`available_tools`) used to build the
capability prompt, and `execute(name, parameters)` returning a result
object carrying `result`/`error` fields or raising (`Except.error e`
models a raised exception with `str(e) = e`). -/
structure MCPClient (J R : Type) where
  available_tools : List (String × MCPTool)
  execute_tool : String → J → Except String (Option R × Option String)

/-- The external collaborators of `A2AOllama`, supplied to the embedded
code.  `chat k model turns` is the `self.client.chat` call with the
response envelope collapsed to `response["message"]["content"]`
(`Except.error e` models a raised exception with `str(e) = e`); it is
indexed by `k`, the number of chat calls this processing call has made
so far, so the environment may answer each attempt differently.
`chatStream` is the `stream=True` variant: the content deltas the
iterator yields, then `some e` if it raises afterwards.  `jsonParse`
is `json.loads` on a parameters group, `dumpResults` is `json.dumps`
on a tool-results list, `dumpPayload` is `json.dumps` on one result
payload, `msgId` is the generated `uuid4` message id.
`availableModels` is the backend's model-listing capability (spec
§4.3, `listAvailableModels`); it is part of the environment so that
claims about fallback model selection can be stated — the source never
queries it. -/
structure Env (J R : Type) where
  chat : Nat → String → List Turn → Except String String
  chatStream : Nat → String → List Turn → List String × Option String
  jsonParse : String → Option J
  dumpResults : List (ToolResultEntry R) → String
  dumpPayload : Option R → String
  msgId : String
  availableModels : List String

/-- The configuration of an `A2AOllama` instance: the model picked at
construction, the agent-card name and description used for the
synthesized system prompt, and the optional MCP client. -/
structure Cfg (J R : Type) where
  model : String
  name : String
  description : String
  mcp_client : Option (MCPClient J R)

/-- The mutable state `_process_task` touches: the task store and the
message store. -/
structure St (Pm : Type) where
  tm : TaskManager Pm
  mh : MessageHandler

/-- `A2AOllama._get_mcp_tools_description`: the natural-language tool
prompt built from the registry, empty when there are no tools. -/
def get_mcp_tools_description {J R : Type} (m : MCPClient J R) : String :=
  if m.available_tools.isEmpty then ""
  else
    let body := m.available_tools.foldl (fun acc nt =>
      let acc := acc ++ "- " ++ nt.1 ++ ": " ++ nt.2.description ++ "\n"
      let acc :=
        if nt.2.parameters.isEmpty then acc
        else nt.2.parameters.foldl (fun a p =>
          a ++ "  - " ++ p.name ++ (if p.required then " (required)" else "") ++ ": "
            ++ p.description ++ "\n") (acc ++ "  Parameters:\n")
      acc ++ "\n") "You have access to the following tools:\n\n"
    body ++ "\nTo use a tool, respond with JSON in this format: \x7b\"name\": \"tool_name\", \"parameters\": \x7b\"param1\": \"value1\"\x7d\x7d\n"

/-- The in-place mutation `msg["content"] += description` applied to the
first system-role turn, `none` when no system turn exists. -/
def appendDescToFirstSystem (desc : String) : List Turn → Option (List Turn)
  | [] => none
  | t :: ts =>
    if t.role = "system" then some ({ t with content := t.content ++ desc } :: ts)
    else (appendDescToFirstSystem desc ts).map (fun ts2 => t :: ts2)

/-- The tool-capability injection performed before each chat call
(`_process_task` lines 162-178 and `_process_task_stream` lines
375-391): when an MCP client with a non-empty registry is configured,
append the tools description to the first system turn, or, if none
exists, prepend a fresh system turn introducing the agent. -/
def injectTools {J R : Type} (cfg : Cfg J R) (msgs : List Turn) : List Turn :=
  match cfg.mcp_client with
  | none => msgs
  | some m =>
    if m.available_tools.isEmpty then msgs
    else
      match appendDescToFirstSystem (get_mcp_tools_description m) msgs with
      | some msgs2 => msgs2
      | none =>
        ⟨"system", "You are " ++ cfg.name ++ ", " ++ cfg.description ++ ". "
            ++ get_mcp_tools_description m⟩ :: msgs

/-- The tool-execution loop of `_process_task` (lines 192-210): run each
extracted call through the bridge in order, collecting one
`{name, result, error}` entry per call (an exception becomes an entry
with `result = None` and the exception text), and the list of
`execute_tool` invocations actually made, in order. -/
def execToolCalls {J R : Type} (m : MCPClient J R) :
    List (ToolCall J) → List (ToolResultEntry R) × List (String × J)
  | [] => ([], [])
  | tc :: tcs =>
    let entry : ToolResultEntry R :=
      match m.execute_tool tc.name tc.parameters with
      | .ok rr => ⟨tc.name, rr.1, rr.2⟩
      | .error e => ⟨tc.name, none, some e⟩
    let rest := execToolCalls m tcs
    (entry :: rest.1, (tc.name, tc.parameters) :: rest.2)

/-- The augmented history submitted for the second chat call of a tool
round-trip: the injected history, the model's own reply as an assistant
turn, and a system turn carrying the serialized tool results. -/
def toolHist {J R : Type} (cfg : Cfg J R) (env : Env J R) (m : MCPClient J R)
    (msgs0 : List Turn) (response_content : String) (tcs : List (ToolCall J)) : List Turn :=
  injectTools cfg msgs0
    ++ [⟨"assistant", response_content⟩,
        ⟨"system", "Tool results: " ++ env.dumpResults (execToolCalls m tcs).1⟩]

/-- Result of one iteration of the retry loop: the attempt's outcome
(final content, or the error that will trigger a retry), the possibly
mutated `ollama_messages` list (Python mutates it in place, so the
mutation persists into the next attempt), and the chat calls and tool
invocations the attempt made. -/
structure AttemptRes (J : Type) where
  outcome : Except String String
  msgs : List Turn
  chats : List (String × List Turn)
  tools : List (String × J)

/-- The tail of one retry-loop iteration after a successful chat call
(`_process_task` lines 186-230): extract tool calls from the reply and,
when some are found and an MCP client is configured, execute them and
make one further backend call whose reply supersedes the first (a
failure of that second call is the attempt's error). -/
def afterChat {J R : Type} (cfg : Cfg J R) (env : Env J R) (k : Nat) (msgs0 : List Turn)
    (response_content : String) : AttemptRes J :=
  match cfg.mcp_client, extract_tool_calls env.jsonParse response_content with
  | some m, tc :: tcs =>
    match env.chat (k + 1) cfg.model (toolHist cfg env m msgs0 response_content (tc :: tcs)) with
    | .ok final_content =>
      ⟨.ok final_content, toolHist cfg env m msgs0 response_content (tc :: tcs),
       [(cfg.model, injectTools cfg msgs0),
        (cfg.model, toolHist cfg env m msgs0 response_content (tc :: tcs))],
       (execToolCalls m (tc :: tcs)).2⟩
    | .error e =>
      ⟨.error e, toolHist cfg env m msgs0 response_content (tc :: tcs),
       [(cfg.model, injectTools cfg msgs0),
        (cfg.model, toolHist cfg env m msgs0 response_content (tc :: tcs))],
       (execToolCalls m (tc :: tcs)).2⟩
  | _, _ =>
    ⟨.ok response_content, injectTools cfg msgs0, [(cfg.model, injectTools cfg msgs0)], []⟩

/-- One iteration of the `while retry_count < max_retries` body of
`_process_task`: inject the tool prompt, call the backend, then run the
tool round-trip step on the reply.  Any raised exception (a failed chat
call) becomes an `.error` outcome. -/
def attemptOnce {J R : Type} (cfg : Cfg J R) (env : Env J R) (k : Nat) (msgs0 : List Turn) :
    AttemptRes J :=
  match env.chat k cfg.model (injectTools cfg msgs0) with
  | .error e =>
    ⟨.error e, injectTools cfg msgs0, [(cfg.model, injectTools cfg msgs0)], []⟩
  | .ok response_content => afterChat cfg env k msgs0 response_content

/-- The retry loop of `_process_task` (`max_retries = 3`), returning the
first successful content or, once the fuel is exhausted, the last error
(`none` only if no attempt ran), together with the accumulated chat and
tool traces. -/
def processLoop {J R : Type} (cfg : Cfg J R) (env : Env J R) :
    Nat → Nat → List Turn → Option String →
      Except (Option String) String × List (String × List Turn) × List (String × J)
  | 0, _, _, lastErr => (.error lastErr, [], [])
  | fuel + 1, k, msgs, _ =>
    let a := attemptOnce cfg env k msgs
    match a.outcome with
    | .ok content => (.ok content, a.chats, a.tools)
    | .error e =>
      let r := processLoop cfg env fuel (k + a.chats.length) a.msgs (some e)
      (r.1, a.chats ++ r.2.1, a.tools ++ r.2.2)

/-- The observable calls a processing run makes on its environment:
every `client.chat` call with the model and history it was given, every
`execute_tool` invocation, and the number of model-listing queries (the
source contains none, so the embedding never increments it; the field
exists to state claims about fallback model selection). -/
structure Trace (J : Type) where
  chatCalls : List (String × List Turn)
  toolCalls : List (String × J)
  listModelsCalls : Nat
  deriving DecidableEq

/-- The dictionary `_process_task` returns, by shape. -/
inductive ProcResult where
  | notFound (error : String)
  | delegated
  | completed (task_id message_id status : String) (message : Message)
  | failed (task_id : String) (error : Option String)
  deriving DecidableEq

/-- The `message` entry of a completed result. -/
def resultMessage : ProcResult → Option Message
  | .completed _ _ _ m => some m
  | _ => none

/-- `A2AOllama._process_task`: resolve the task (error if absent),
delegate when the task-manager MCP bridge applies, otherwise run the
retry loop over the stored history; on success set status "completed",
persist one agent-role message carrying the final content and return it;
on exhaustion set status "failed" and return the last error. -/
def process_task {J R Pm : Type} (cfg : Cfg J R) (env : Env J R) (st : St Pm)
    (now task_id : String) : ProcResult × St Pm × Trace J :=
  match get_task st.tm task_id with
  | none => (.notFound ("Task not found: " ++ task_id), st, ⟨[], [], 0⟩)
  | some _ =>
    if st.tm.mcp_bridge then (.delegated, st, ⟨[], [], 0⟩)
    else
      let r := processLoop cfg env 3 0 (get_ollama_messages task_id st.mh) none
      match r.1 with
      | .ok content =>
        let message : Message := ⟨env.msgId, "agent", [⟨"text", content⟩]⟩
        (.completed task_id env.msgId "completed" message,
         ⟨(update_task_status st.tm now task_id "completed").2,
          add_message task_id message st.mh⟩,
         ⟨r.2.1, r.2.2, 0⟩)
      | .error lastErr =>
        (.failed task_id lastErr,
         ⟨(update_task_status st.tm now task_id "failed").2, st.mh⟩,
         ⟨r.2.1, r.2.2, 0⟩)

/-- The injected history of the first chat call of a processing run. -/
def primaryHist {J R Pm : Type} (cfg : Cfg J R) (st : St Pm) (task_id : String) : List Turn :=
  injectTools cfg (get_ollama_messages task_id st.mh)

/-! ## Streaming (`A2AOllama._process_task_stream`) -/

/-- A single-quote character, used by the tool-result chunk texts. -/
def apos : String := (Char.ofNat 39).toString

/-- A chunk yielded by `_process_task_stream`, by shape: `part` is a
non-final text chunk (`done: False`); `errNoId` the task-not-found or
MCP-unsupported terminal error (no message id); `errFail` the
mid-stream-failure terminal chunk (`status: "failed"`); `final` the
terminal chunk carrying the persisted message (`status: "completed"`). -/
inductive SChunk where
  | part (task_id message_id content : String)
  | errNoId (task_id error : String)
  | errFail (task_id message_id error : String)
  | final (task_id message_id : String) (message : Message)
  deriving DecidableEq

/-- The streaming tool-execution loop (`_process_task_stream` lines
444-485): per extracted call, one `{name, result, error}` entry and one
non-final chunk reporting the result or the error. -/
def streamToolChunks {J R : Type} (env : Env J R) (task_id mid : String) (m : MCPClient J R) :
    List (ToolCall J) → List (ToolResultEntry R) × List SChunk
  | [] => ([], [])
  | tc :: tcs =>
    let step : ToolResultEntry R × SChunk :=
      match m.execute_tool tc.name tc.parameters with
      | .ok rr =>
        (⟨tc.name, rr.1, rr.2⟩,
         .part task_id mid
           ("\nTool " ++ apos ++ tc.name ++ apos ++ " result: " ++ env.dumpPayload rr.1))
      | .error e =>
        (⟨tc.name, none, some e⟩,
         .part task_id mid ("\nTool " ++ apos ++ tc.name ++ apos ++ " error: " ++ e))
    let rest := streamToolChunks env task_id mid m tcs
    (step.1 :: rest.1, step.2 :: rest.2)

/-- The deltas actually forwarded: the chunk loop skips falsy (empty)
contents (`if content:`), so only non-empty deltas are forwarded and
accumulated. -/
def nonEmptyDeltas (l : List String) : List String := l.filter (fun c => c ≠ "")

/-- `A2AOllama._process_task_stream`: emit an error chunk for an unknown
task or an MCP task; otherwise set status "working", stream the backend
reply forwarding each non-empty delta as a chunk while accumulating the
full content (a mid-stream exception yields one terminal failed chunk
and sets status "failed"); then scan the accumulated content for tool
calls and, when some are found and an MCP client is configured, execute
them (announcing each result as a chunk), make a second streamed call on
the augmented history appending its deltas, and finally persist one
agent message with the accumulated content, set status "completed" and
emit the terminal chunk carrying that message. -/
def process_task_stream {J R Pm : Type} (cfg : Cfg J R) (env : Env J R) (st : St Pm)
    (now task_id : String) : List SChunk × St Pm :=
  match get_task st.tm task_id with
  | none => ([.errNoId task_id ("Task not found: " ++ task_id)], st)
  | some _ =>
    if st.tm.mcp_bridge then
      ([.errNoId task_id "Streaming not supported for MCP tasks"], st)
    else
      let tm1 := (update_task_status st.tm now task_id "working").2
      let mid := env.msgId
      let msgs := injectTools cfg (get_ollama_messages task_id st.mh)
      let s0 := env.chatStream 0 cfg.model msgs
      let parts1 := (nonEmptyDeltas s0.1).map (SChunk.part task_id mid)
      let full0 := String.join (nonEmptyDeltas s0.1)
      match s0.2 with
      | some e =>
        (parts1 ++ [.errFail task_id mid e],
         ⟨(update_task_status tm1 now task_id "failed").2, st.mh⟩)
      | none =>
        match cfg.mcp_client, extract_tool_calls env.jsonParse full0 with
        | some m, tc :: tcs =>
          let tr := streamToolChunks env task_id mid m (tc :: tcs)
          let msgs2 := msgs ++ [⟨"assistant", full0⟩,
            ⟨"system", "Tool results: " ++ env.dumpResults tr.1⟩]
          let s1 := env.chatStream 1 cfg.model msgs2
          let parts2 := (nonEmptyDeltas s1.1).map (SChunk.part task_id mid)
          let finalContent := String.join (nonEmptyDeltas s1.1)
          let errChunks :=
            match s1.2 with
            | some e => [SChunk.part task_id mid ("\n\nError generating final response: " ++ e)]
            | none => ([] : List SChunk)
          let full := full0 ++ "\n\n" ++ finalContent
          let message : Message := ⟨mid, "agent", [⟨"text", full⟩]⟩
          (parts1 ++ [.part task_id mid "\n\nExecuting tool calls..."] ++ tr.2
             ++ [.part task_id mid "\n\nGenerating final response with tool results..."]
             ++ parts2 ++ errChunks ++ [.final task_id mid message],
           ⟨(update_task_status tm1 now task_id "completed").2,
            add_message task_id message st.mh⟩)
        | _, _ =>
          let message : Message := ⟨mid, "agent", [⟨"text", full0⟩]⟩
          (parts1 ++ [.final task_id mid message],
           ⟨(update_task_status tm1 now task_id "completed").2,
            add_message task_id message st.mh⟩)

/-- The `content` fields of the non-final (`done: False`) chunks, in
emission order. -/
def nonFinalContents : List SChunk → List String
  | [] => []
  | .part _ _ c :: rest => c :: nonFinalContents rest
  | .errNoId _ _ :: rest => nonFinalContents rest
  | .errFail _ _ _ :: rest => nonFinalContents rest
  | .final _ _ _ :: rest => nonFinalContents rest

/-! ## Concrete instances used by witnesses and counterexamples -/

/-- A one-task store state: task "t1" in status "submitted" with one
stored user message saying "hi". -/
def st1 : St Unit :=
  ⟨⟨[("t1", ⟨"t1", "submitted", "c", "u", ()⟩)], false⟩,
   ⟨[("t1", ⟨"u1", "user", [⟨"text", "hi"⟩]⟩)]⟩⟩

/-- A configuration with no MCP client. -/
def cfg1 : Cfg Unit Unit := ⟨"m0", "agent", "a test agent", none⟩

/-- An environment whose chat backend always succeeds with "Hi there". -/
def env1 : Env Unit Unit :=
  ⟨fun _ _ _ => .ok "Hi there", fun _ _ _ => ([], none), fun _ => none,
   fun _ => "", fun _ => "", "mid", []⟩

/-- An environment whose chat backend always raises "boom". -/
def env2 : Env Unit Unit :=
  ⟨fun _ _ _ => .error "boom", fun _ _ _ => ([], none), fun _ => none,
   fun _ => "", fun _ => "", "mid", []⟩

/-- The first backend reply of the tool round-trip example: it embeds one
well-formed tool call. -/
def s1reply : String :=
  "Sure: \x7b\"name\": \"get_weather\", \"parameters\": \x7b\"location\": \"Paris\"\x7d\x7d"

/-- The second backend reply: it also embeds a tool-call shape, to show
that no third backend call follows. -/
def s2reply : String :=
  "Done \x7b\"name\": \"noop\", \"parameters\": \x7b\x7d\x7d"

/-- A concrete MCP client: one registered tool, execution echoing the
parameters string. -/
def m3 : MCPClient String String :=
  ⟨[("get_weather", ⟨"Get the weather", [⟨"location", true, "The city"⟩]⟩)],
   fun n p => .ok (some (n ++ ":" ++ p), none)⟩

/-- A configuration with the MCP client `m3`. -/
def cfg3 : Cfg String String := ⟨"m0", "agent", "a test agent", some m3⟩

/-- An environment for the tool round-trip example: the parameters group
parses to itself, the first chat call answers `s1reply`, every later one
`s2reply`. -/
def env3 : Env String String :=
  ⟨fun k _ _ => if k = 0 then .ok s1reply else .ok s2reply,
   fun _ _ _ => ([], none), fun s => some s,
   fun l => String.join (l.map (fun e => e.name)), fun _ => "", "mid", []⟩

/-- The store state for the tool round-trip example. -/
def st3 : St Unit := st1

/-- An environment streaming "Hello ", an empty delta and "world",
completing without error. -/
def env7 : Env Unit Unit :=
  ⟨fun _ _ _ => .ok "", fun _ _ _ => (["Hello ", "", "world"], none), fun _ => none,
   fun _ => "", fun _ => "", "mid", []⟩

/-- An environment whose stream completes immediately with no deltas. -/
def env8 : Env Unit Unit :=
  ⟨fun _ _ _ => .ok "", fun _ _ _ => ([], none), fun _ => none,
   fun _ => "", fun _ => "", "mid", []⟩

/-- A configuration with model "m0" and no MCP client, for the fallback
claim. -/
def cfg9 : Cfg Unit Unit := ⟨"m0", "agent", "a test agent", none⟩

/-- An environment in which the configured model "m0" is not among the
available models while "llama3" is. -/
def env9 : Env Unit Unit :=
  ⟨fun _ _ _ => .ok "hi", fun _ _ _ => ([], none), fun _ => none,
   fun _ => "", fun _ => "", "mid", ["llama3"]⟩

/-! ## Theorems -/

lemma get_task_isSome_iff {Pm : Type} (tm : TaskManager Pm) (task_id : String) :
    (get_task tm task_id).isSome
      ↔ (tm.tasks.find? (fun p => p.1 = task_id)).isSome := by
  unfold get_task
  cases tm.tasks.find? (fun p => p.1 = task_id) <;> simp

lemma update_status_none {Pm : Type} {tm : TaskManager Pm} {now task_id s : String}
    (hf : tm.tasks.find? (fun p => p.1 = task_id) = none) :
    update_task_status tm now task_id s = (false, tm) := by
  simp [update_task_status, hf]

lemma update_status_invalid {Pm : Type} {tm : TaskManager Pm} {now task_id s : String}
    (hv : s ∉ validStatuses) :
    update_task_status tm now task_id s = (false, tm) := by
  simp only [update_task_status, if_neg hv]
  split <;> rfl

lemma update_status_found {Pm : Type} {tm : TaskManager Pm} {now task_id s : String}
    {q : String × Task Pm}
    (hf : tm.tasks.find? (fun p => p.1 = task_id) = some q) (hv : s ∈ validStatuses) :
    update_task_status tm now task_id s
      = (true,
        { tm with
          tasks := tm.tasks.map (fun p =>
            if p.1 = task_id then (p.1, { p.2 with status := s, updated_at := now })
            else p) }) := by
  simp [update_task_status, hf, hv]

lemma find?_map_status_upd {Pm : Type} (l : List (String × Task Pm)) (task_id s now : String)
    (h : (l.find? (fun p => p.1 = task_id)).isSome) :
    ((l.map (fun p =>
        if p.1 = task_id then (p.1, { p.2 with status := s, updated_at := now })
        else p)).find? (fun p => p.1 = task_id)).map (fun p => p.2.status) = some s := by
  induction l with
  | nil => simp at h
  | cons hd tl ih =>
    by_cases hk : hd.1 = task_id
    · simp only [List.map_cons, if_pos hk]
      rw [List.find?_cons_of_pos _ (by simpa using hk)]
      simp
    · simp only [List.map_cons, if_neg hk]
      rw [List.find?_cons_of_neg _ (by simpa using hk)]
      rw [List.find?_cons_of_neg _ (by simpa using hk)] at h
      exact ih h

/-- After a successful `update_task_status tm now id s`, reading the
task's status back gives `s`. -/
lemma task_status_update_self {Pm : Type} (tm : TaskManager Pm) (now task_id s : String)
    (h : (get_task tm task_id).isSome) (hs : s ∈ validStatuses) :
    task_status (update_task_status tm now task_id s).2 task_id = some s := by
  obtain ⟨q, hf⟩ := Option.isSome_iff_exists.mp ((get_task_isSome_iff tm task_id).mp h)
  rw [update_status_found hf hs]
  unfold task_status get_task
  have hfind := find?_map_status_upd tm.tasks task_id s now (by rw [hf]; rfl)
  simpa [Option.map_map] using hfind

/-- Helper: `update_task_status` succeeds iff the id exists and the status
is recognized, and on failure the store is returned unchanged. -/
lemma update_status_spec {Pm : Type} (tm : TaskManager Pm) (now task_id s : String) :
    ((update_task_status tm now task_id s).1 = true
        ↔ ((get_task tm task_id).isSome ∧ s ∈ validStatuses))
      ∧ ((update_task_status tm now task_id s).1 = false
        → (update_task_status tm now task_id s).2 = tm) := by
  cases hf : tm.tasks.find? (fun p => p.1 = task_id) with
  | none =>
    rw [update_status_none hf]
    have hg : get_task tm task_id = none := by simp [get_task, hf]
    exact ⟨by simp [hg], fun _ => rfl⟩
  | some q =>
    by_cases hv : s ∈ validStatuses
    · rw [update_status_found hf hv]
      constructor
      · simp only [true_iff]
        exact ⟨(get_task_isSome_iff tm task_id).mpr (by rw [hf]; rfl), hv⟩
      · intro hc
        simp at hc
    · rw [update_status_invalid hv]
      exact ⟨by simp [hv], fun _ => rfl⟩

/-- C5: `update_task_status` returns `true` exactly when the id exists and
the status is one of the six recognized statuses; whenever it returns
`false` the whole `TaskManager` state (hence every stored task record,
its status included) is unchanged. -/
theorem c5_update_status_iff {Pm : Type} (tm : TaskManager Pm) (now task_id s : String) :
    ((update_task_status tm now task_id s).1 = true
        ↔ ((get_task tm task_id).isSome ∧ s ∈ validStatuses))
      ∧ ((update_task_status tm now task_id s).1 = false
        → (update_task_status tm now task_id s).2 = tm) :=
  update_status_spec tm now task_id s

/-- Witness for C5 at a concrete store: updating an existing task to the
unrecognized status "bogus" is rejected and leaves the store unchanged. -/
theorem c5_witness :
    (update_task_status
        (⟨[("t1", ⟨"t1", "submitted", "c", "u", ()⟩)], false⟩ : TaskManager Unit)
        "n" "t1" "bogus").1 = false
      ∧ (update_task_status
        (⟨[("t1", ⟨"t1", "submitted", "c", "u", ()⟩)], false⟩ : TaskManager Unit)
        "n" "t1" "bogus").2
        = (⟨[("t1", ⟨"t1", "submitted", "c", "u", ()⟩)], false⟩ : TaskManager Unit) := by
  have h := c5_update_status_iff
    (⟨[("t1", ⟨"t1", "submitted", "c", "u", ()⟩)], false⟩ : TaskManager Unit) "n" "t1" "bogus"
  have h1 : (update_task_status
      (⟨[("t1", ⟨"t1", "submitted", "c", "u", ()⟩)], false⟩ : TaskManager Unit)
      "n" "t1" "bogus").1 = false := by
    cases hb : (update_task_status
        (⟨[("t1", ⟨"t1", "submitted", "c", "u", ()⟩)], false⟩ : TaskManager Unit)
        "n" "t1" "bogus").1
    · rfl
    · exact absurd ((h.1.mp hb).2) (by decide)
  exact ⟨h1, h.2 h1⟩

/-- C6 counterexample: `update_task_status` happily moves a task backwards
along the lifecycle order — a task in terminal status "completed" is
reset to "submitted" and the call reports success, refuting the claim
that the store never moves a task backwards. -/
theorem c6_counterexample :
    (update_task_status
        (⟨[("t1", ⟨"t1", "completed", "c", "u", ()⟩)], false⟩ : TaskManager Unit)
        "n" "t1" "submitted").1 = true
      ∧ task_status (update_task_status
        (⟨[("t1", ⟨"t1", "completed", "c", "u", ()⟩)], false⟩ : TaskManager Unit)
        "n" "t1" "submitted").2 "t1" = some "submitted" := by
  constructor
  · rfl
  · rfl

/-- C6 as amended: `update_task_status` validates only membership of the
target status in the fixed six-element enumeration, never the direction of
the transition — any recognized status is accepted (and stored) whatever
the current status, while an unrecognized status is rejected without
mutating the record. -/
theorem c6_membership_only {Pm : Type} (tm : TaskManager Pm) (now task_id s : String)
    (hex : (get_task tm task_id).isSome) :
    (s ∈ validStatuses
        → (update_task_status tm now task_id s).1 = true
          ∧ task_status (update_task_status tm now task_id s).2 task_id = some s)
      ∧ (s ∉ validStatuses
        → update_task_status tm now task_id s = (false, tm)) := by
  constructor
  · intro hv
    refine ⟨?_, task_status_update_self tm now task_id s hex hv⟩
    exact (update_status_spec tm now task_id s).1.mpr ⟨hex, hv⟩
  · intro hv
    exact update_status_invalid hv

/-- Witness for C6 (amended): on a concrete store holding a completed
task, the recognized status "submitted" is accepted and stored, and the
unrecognized status "zzz" is rejected without effect. -/
theorem c6_witness :
    ((update_task_status
        (⟨[("t1", ⟨"t1", "completed", "c", "u", ()⟩)], false⟩ : TaskManager Unit)
        "n" "t1" "submitted").1 = true
      ∧ task_status (update_task_status
        (⟨[("t1", ⟨"t1", "completed", "c", "u", ()⟩)], false⟩ : TaskManager Unit)
        "n" "t1" "submitted").2 "t1" = some "submitted")
      ∧ update_task_status
        (⟨[("t1", ⟨"t1", "completed", "c", "u", ()⟩)], false⟩ : TaskManager Unit)
        "n" "t1" "zzz"
        = (false, (⟨[("t1", ⟨"t1", "completed", "c", "u", ()⟩)], false⟩ : TaskManager Unit)) := by
  have h := c6_membership_only
    (⟨[("t1", ⟨"t1", "completed", "c", "u", ()⟩)], false⟩ : TaskManager Unit)
    "n" "t1" "submitted" (by decide)
  have h2 := c6_membership_only
    (⟨[("t1", ⟨"t1", "completed", "c", "u", ()⟩)], false⟩ : TaskManager Unit)
    "n" "t1" "zzz" (by decide)
  exact ⟨h.1 (by decide), h2.2 (by decide)⟩

lemma extractLoop_eq_filterMap {J : Type} (jsonParse : String → Option J)
    (ms : List (String × String)) (acc : List (ToolCall J)) :
    extractLoop jsonParse ms acc
      = acc ++ ms.filterMap (fun m => (jsonParse m.2).map (fun v => ⟨m.1, v⟩)) := by
  induction ms generalizing acc with
  | nil => simp [extractLoop]
  | cons m ms ih =>
    cases hp : jsonParse m.2 with
    | none => simp [extractLoop, hp, ih]
    | some v => simp [extractLoop, hp, ih]

/-- C4: tool-call extraction returns exactly one call per regex match of
the tool-call shape, in match order; a match whose parameters group
fails to parse is dropped while every other match is still extracted
(extraction is the filterMap of the parser over the match list); and a
reply whose embedded JSON is missing its closing brace produces zero
matches and therefore zero extracted tool calls. -/
theorem c4_extraction {J : Type} (jsonParse : String → Option J) :
    (∀ content, extract_tool_calls jsonParse content
        = (toolCallMatches content).filterMap
            (fun m => (jsonParse m.2).map (fun v => ⟨m.1, v⟩)))
      ∧ toolCallMatches malformedReply = []
      ∧ extract_tool_calls jsonParse malformedReply = [] := by
  have hmal : toolCallMatches malformedReply = [] := by decide
  refine ⟨fun content => ?_, hmal, ?_⟩
  · simpa using extractLoop_eq_filterMap jsonParse (toolCallMatches content) []
  · rw [extract_tool_calls, hmal]
    rfl

/-- C10: `from_dict` is a left inverse of `to_dict` — the round trip
restores all five fields exactly, and the extra "protocol" entry that
`to_dict` adds (with fixed value "a2a-1.0") is ignored by `from_dict`. -/
theorem c10_card_roundtrip {Sk : Type} (c : AgentCard Sk) :
    AgentCard.from_dict (AgentCard.to_dict c) = c
      ∧ (AgentCard.to_dict c).find? (fun p => p.1 = "protocol")
        = some ("protocol", CardVal.str "a2a-1.0") := by
  constructor
  · rfl
  · rfl

lemma get_messages_add (task_id : String) (m : Message) (mh : MessageHandler) :
    get_messages task_id (add_message task_id m mh) = get_messages task_id mh ++ [m] := by
  simp [get_messages, add_message]

lemma attemptOnce_err {J R : Type} {cfg : Cfg J R} {env : Env J R} {k : Nat}
    {msgs0 : List Turn} {e : String}
    (h : env.chat k cfg.model (injectTools cfg msgs0) = .error e) :
    attemptOnce cfg env k msgs0
      = ⟨.error e, injectTools cfg msgs0, [(cfg.model, injectTools cfg msgs0)], []⟩ := by
  simp only [attemptOnce]
  rw [h]

/-- Under a backend that answers every chat call, the tool round-trip
step ends with a successful outcome. -/
lemma afterChat_outcome_ok {J R : Type} {cfg : Cfg J R} {env : Env J R}
    (k : Nat) (msgs0 : List Turn) (rc : String)
    (hok : ∀ k m msgs, ∃ c, env.chat k m msgs = .ok c) :
    ∃ c, (afterChat cfg env k msgs0 rc).outcome = .ok c := by
  simp only [afterChat]
  split
  · rename_i m tc tcs h1 h2
    obtain ⟨c1, hc1⟩ := hok (k + 1) cfg.model (toolHist cfg env m msgs0 rc (tc :: tcs))
    simp only [hc1]
    exact ⟨c1, rfl⟩
  · exact ⟨rc, rfl⟩

/-- Under a backend that answers every chat call, one attempt of the
retry loop ends with a successful outcome. -/
lemma attemptOnce_outcome_ok {J R : Type} {cfg : Cfg J R} {env : Env J R}
    (k : Nat) (msgs0 : List Turn)
    (hok : ∀ k m msgs, ∃ c, env.chat k m msgs = .ok c) :
    ∃ c, (attemptOnce cfg env k msgs0).outcome = .ok c := by
  obtain ⟨c0, hc0⟩ := hok k cfg.model (injectTools cfg msgs0)
  simp only [attemptOnce, hc0]
  exact afterChat_outcome_ok k msgs0 c0 hok

lemma processLoop_succ_ok {J R : Type} {cfg : Cfg J R} {env : Env J R} {fuel k : Nat}
    {msgs : List Turn} {le : Option String} {c : String}
    (h : (attemptOnce cfg env k msgs).outcome = .ok c) :
    processLoop cfg env (fuel + 1) k msgs le
      = (.ok c, (attemptOnce cfg env k msgs).chats, (attemptOnce cfg env k msgs).tools) := by
  simp only [processLoop]
  rw [h]

lemma processLoop_succ_err {J R : Type} {cfg : Cfg J R} {env : Env J R} {fuel k : Nat}
    {msgs : List Turn} {le : Option String} {e : String}
    (h : (attemptOnce cfg env k msgs).outcome = .error e) :
    processLoop cfg env (fuel + 1) k msgs le
      = ((processLoop cfg env fuel (k + (attemptOnce cfg env k msgs).chats.length)
            (attemptOnce cfg env k msgs).msgs (some e)).1,
         (attemptOnce cfg env k msgs).chats
           ++ (processLoop cfg env fuel (k + (attemptOnce cfg env k msgs).chats.length)
                (attemptOnce cfg env k msgs).msgs (some e)).2.1,
         (attemptOnce cfg env k msgs).tools
           ++ (processLoop cfg env fuel (k + (attemptOnce cfg env k msgs).chats.length)
                (attemptOnce cfg env k msgs).msgs (some e)).2.2) := by
  simp only [processLoop]
  rw [h]

/-- C1: when the task exists, the MCP-bridge branch does not apply and
every backend chat call succeeds, `process_task` sets the task's status
to "completed", appends exactly one new message — an agent-role message
for that task — to the message store, and the message in the returned
result is exactly the last stored message of that task. -/
theorem c1_process_success {J R Pm : Type} (cfg : Cfg J R) (env : Env J R) (st : St Pm)
    (now task_id : String)
    (hb : st.tm.mcp_bridge = false)
    (ht : (get_task st.tm task_id).isSome)
    (hok : ∀ k m msgs, ∃ c, env.chat k m msgs = .ok c) :
    task_status (process_task cfg env st now task_id).2.1.tm task_id = some "completed"
      ∧ (process_task cfg env st now task_id).2.1.mh.messages.dropLast = st.mh.messages
      ∧ ((process_task cfg env st now task_id).2.1.mh.messages.getLast?).map
          (fun p => (p.1, p.2.role)) = some (task_id, "agent")
      ∧ resultMessage (process_task cfg env st now task_id).1
        = (get_messages task_id (process_task cfg env st now task_id).2.1.mh).getLast? := by
  obtain ⟨tk, htk⟩ := Option.isSome_iff_exists.mp ht
  obtain ⟨content, hco⟩ :=
    attemptOnce_outcome_ok 0 (get_ollama_messages task_id st.mh) hok
  have hloop : processLoop cfg env 3 0 (get_ollama_messages task_id st.mh) none
      = (.ok content,
         (attemptOnce cfg env 0 (get_ollama_messages task_id st.mh)).chats,
         (attemptOnce cfg env 0 (get_ollama_messages task_id st.mh)).tools) := by
    rw [show (3 : Nat) = 2 + 1 from rfl]
    exact processLoop_succ_ok hco
  have key : process_task cfg env st now task_id
      = (.completed task_id env.msgId "completed" ⟨env.msgId, "agent", [⟨"text", content⟩]⟩,
         ⟨(update_task_status st.tm now task_id "completed").2,
          add_message task_id ⟨env.msgId, "agent", [⟨"text", content⟩]⟩ st.mh⟩,
         ⟨(attemptOnce cfg env 0 (get_ollama_messages task_id st.mh)).chats,
          (attemptOnce cfg env 0 (get_ollama_messages task_id st.mh)).tools, 0⟩) := by
    simp [process_task, htk, hb, hloop]
  refine ⟨?_, ?_, ?_, ?_⟩
  · rw [key]
    exact task_status_update_self st.tm now task_id "completed" ht (by decide)
  · rw [key]
    simp [add_message]
  · rw [key]
    simp [add_message, List.getLast?_concat]
  · rw [key]
    simp [resultMessage, get_messages_add, List.getLast?_concat]

/-- Witness for C1: a concrete run with an existing task and a backend
that always answers "Hi there" ends completed with the returned message
equal to the last stored message. -/
theorem c1_witness :
    task_status (process_task cfg1 env1 st1 "n" "t1").2.1.tm "t1" = some "completed"
      ∧ resultMessage (process_task cfg1 env1 st1 "n" "t1").1
        = (get_messages "t1" (process_task cfg1 env1 st1 "n" "t1").2.1.mh).getLast? := by
  have h := c1_process_success cfg1 env1 st1 "n" "t1" rfl (by decide)
    (fun _ _ _ => ⟨"Hi there", rfl⟩)
  exact ⟨h.1, h.2.2.2⟩

/-- Under a backend whose call number `k` always raises with text
`ef k`, the retry loop runs exactly `fuel` attempts, each making one
chat call, and ends with the error of the last attempt. -/
lemma processLoop_all_fail {J R : Type} (cfg : Cfg J R) (env : Env J R) (ef : Nat → String)
    (hfail : ∀ k m msgs, env.chat k m msgs = .error (ef k)) :
    ∀ fuel k msgs le, fuel ≠ 0 →
      (processLoop cfg env fuel k msgs le).1 = .error (some (ef (k + fuel - 1)))
        ∧ (processLoop cfg env fuel k msgs le).2.1.length = fuel
        ∧ (processLoop cfg env fuel k msgs le).2.2 = [] := by
  intro fuel
  induction fuel with
  | zero => intro k msgs le h0; exact absurd rfl h0
  | succ n ih =>
    intro k msgs le _
    have ha := attemptOnce_err (hfail k cfg.model (injectTools cfg msgs))
    have hout : (attemptOnce cfg env k msgs).outcome = .error (ef k) := by rw [ha]
    rw [processLoop_succ_err hout]
    cases n with
    | zero =>
      rw [ha]
      simp [processLoop]
    | succ m =>
      have hlen : (attemptOnce cfg env k msgs).chats.length = 1 := by rw [ha]; rfl
      rw [hlen]
      have hrec := ih (k + 1) (attemptOnce cfg env k msgs).msgs (some (ef k))
        (Nat.succ_ne_zero m)
      refine ⟨?_, ?_, ?_⟩
      · show (processLoop cfg env (m + 1) (k + 1)
            (attemptOnce cfg env k msgs).msgs (some (ef k))).1
          = .error (some (ef (k + (m + 1 + 1) - 1)))
        rw [hrec.1]
        have harith : k + 1 + (m + 1) - 1 = k + (m + 1 + 1) - 1 := by omega
        rw [harith]
      · show ((attemptOnce cfg env k msgs).chats
            ++ (processLoop cfg env (m + 1) (k + 1)
                (attemptOnce cfg env k msgs).msgs (some (ef k))).2.1).length = m + 1 + 1
        simp only [List.length_append, hlen, hrec.2.1]
        omega
      · show (attemptOnce cfg env k msgs).tools
            ++ (processLoop cfg env (m + 1) (k + 1)
                (attemptOnce cfg env k msgs).msgs (some (ef k))).2.2 = []
        rw [hrec.2.2, List.append_nil, ha]

/-- C2 (amended): when the task exists, the MCP-bridge branch does not
apply and every backend chat call raises, `process_task` makes exactly 3
chat attempts, sets the task's status to "failed" and returns a failed
result carrying the last attempt's error text — but it persists no
message at all: the message store is unchanged. -/
theorem c2_all_fail {J R Pm : Type} (cfg : Cfg J R) (env : Env J R) (st : St Pm)
    (now task_id : String) (ef : Nat → String)
    (hb : st.tm.mcp_bridge = false)
    (ht : (get_task st.tm task_id).isSome)
    (hfail : ∀ k m msgs, env.chat k m msgs = .error (ef k)) :
    (process_task cfg env st now task_id).1 = .failed task_id (some (ef 2))
      ∧ (process_task cfg env st now task_id).2.2.chatCalls.length = 3
      ∧ (process_task cfg env st now task_id).2.1.mh = st.mh
      ∧ task_status (process_task cfg env st now task_id).2.1.tm task_id = some "failed" := by
  obtain ⟨tk, htk⟩ := Option.isSome_iff_exists.mp ht
  have hl := processLoop_all_fail cfg env ef hfail 3 0
    (get_ollama_messages task_id st.mh) none (by decide)
  obtain ⟨e, he⟩ : ∃ x, processLoop cfg env 3 0 (get_ollama_messages task_id st.mh) none
      = (.error (some (ef 2)), x) := by
    refine ⟨(processLoop cfg env 3 0 (get_ollama_messages task_id st.mh) none).2, ?_⟩
    have h1 := hl.1
    rw [Prod.ext_iff]
    exact ⟨h1, rfl⟩
  have key : process_task cfg env st now task_id
      = (.failed task_id (some (ef 2)),
         ⟨(update_task_status st.tm now task_id "failed").2, st.mh⟩,
         ⟨e.1, e.2, 0⟩) := by
    simp [process_task, htk, hb, he]
  refine ⟨?_, ?_, ?_, ?_⟩
  · rw [key]
  · rw [key]
    have := hl.2.1
    rw [he] at this
    exact this
  · rw [key]
  · rw [key]
    exact task_status_update_self st.tm now task_id "failed" ht (by decide)

/-- C2 counterexample: with a backend that always raises "boom", the
claimed apologetic fallback message is never persisted — the message
store after the run is exactly the store before it (the stored user
message and nothing else), while the result is a failed result carrying
the error text. -/
theorem c2_counterexample :
    (process_task cfg1 env2 st1 "n" "t1").1 = .failed "t1" (some "boom")
      ∧ (process_task cfg1 env2 st1 "n" "t1").2.1.mh.messages
        = [("t1", ⟨"u1", "user", [⟨"text", "hi"⟩]⟩)] := by
  exact ⟨rfl, rfl⟩

/-- Witness for C2 (amended) at the same concrete input. -/
theorem c2_witness :
    (process_task cfg1 env2 st1 "n" "t1").1 = .failed "t1" (some "boom")
      ∧ (process_task cfg1 env2 st1 "n" "t1").2.2.chatCalls.length = 3
      ∧ (process_task cfg1 env2 st1 "n" "t1").2.1.mh = st1.mh := by
  have h := c2_all_fail cfg1 env2 st1 "n" "t1" (fun _ => "boom") rfl (by decide)
    (fun _ _ _ => rfl)
  exact ⟨h.1, h.2.1, h.2.2.1⟩

lemma afterChat_chats_model {J R : Type} (cfg : Cfg J R) (env : Env J R)
    (k : Nat) (msgs0 : List Turn) (rc : String) :
    ((afterChat cfg env k msgs0 rc).chats).all (fun c => c.1 = cfg.model) = true := by
  simp only [afterChat]
  split
  · split <;> simp
  · simp

lemma attemptOnce_chats_model {J R : Type} (cfg : Cfg J R) (env : Env J R)
    (k : Nat) (msgs0 : List Turn) :
    ((attemptOnce cfg env k msgs0).chats).all (fun c => c.1 = cfg.model) = true := by
  simp only [attemptOnce]
  split
  · simp
  · exact afterChat_chats_model cfg env k msgs0 _

lemma processLoop_chats_model {J R : Type} (cfg : Cfg J R) (env : Env J R) :
    ∀ fuel k msgs le,
      ((processLoop cfg env fuel k msgs le).2.1).all (fun c => c.1 = cfg.model) = true := by
  intro fuel
  induction fuel with
  | zero => intro k msgs le; rfl
  | succ n ih =>
    intro k msgs le
    cases hout : (attemptOnce cfg env k msgs).outcome with
    | ok c =>
      rw [processLoop_succ_ok hout]
      exact attemptOnce_chats_model cfg env k msgs
    | error e =>
      rw [processLoop_succ_err hout]
      simp only [List.all_append]
      rw [attemptOnce_chats_model cfg env k msgs,
        ih (k + (attemptOnce cfg env k msgs).chats.length)
          (attemptOnce cfg env k msgs).msgs (some e)]
      rfl

/-- C9 (amended): `process_task` never queries the environment's set of
available models and calls the backend exclusively with the model
configured at construction, on every attempt; the configured model is
never switched. -/
theorem c9_no_model_query {J R Pm : Type} (cfg : Cfg J R) (env : Env J R) (st : St Pm)
    (now task_id : String) :
    (process_task cfg env st now task_id).2.2.listModelsCalls = 0
      ∧ ((process_task cfg env st now task_id).2.2.chatCalls).all
          (fun c => c.1 = cfg.model) = true := by
  cases htk : get_task st.tm task_id with
  | none => exact ⟨by simp [process_task, htk], by simp [process_task, htk]⟩
  | some tk =>
    cases hb : st.tm.mcp_bridge with
    | true => exact ⟨by simp [process_task, htk, hb], by simp [process_task, htk, hb]⟩
    | false =>
      cases hr : (processLoop cfg env 3 0 (get_ollama_messages task_id st.mh) none).1 with
      | ok content =>
        have key : process_task cfg env st now task_id
            = (.completed task_id env.msgId "completed"
                ⟨env.msgId, "agent", [⟨"text", content⟩]⟩,
               ⟨(update_task_status st.tm now task_id "completed").2,
                add_message task_id ⟨env.msgId, "agent", [⟨"text", content⟩]⟩ st.mh⟩,
               ⟨(processLoop cfg env 3 0 (get_ollama_messages task_id st.mh) none).2.1,
                (processLoop cfg env 3 0 (get_ollama_messages task_id st.mh) none).2.2, 0⟩) := by
          simp [process_task, htk, hb, hr]
        rw [key]
        exact ⟨rfl, processLoop_chats_model cfg env 3 0 (get_ollama_messages task_id st.mh) none⟩
      | error lastErr =>
        have key : process_task cfg env st now task_id
            = (.failed task_id lastErr,
               ⟨(update_task_status st.tm now task_id "failed").2, st.mh⟩,
               ⟨(processLoop cfg env 3 0 (get_ollama_messages task_id st.mh) none).2.1,
                (processLoop cfg env 3 0 (get_ollama_messages task_id st.mh) none).2.2, 0⟩) := by
          simp [process_task, htk, hb, hr]
        rw [key]
        exact ⟨rfl, processLoop_chats_model cfg env 3 0 (get_ollama_messages task_id st.mh) none⟩

/-- C9 counterexample: in a run where the configured model "m0" is
absent from the environment's available models while the alternative
"llama3" is present, the processor still queries the model listing zero
times and makes its one chat call with "m0" itself — no availability
check and no switch to a preferred available model happen. -/
theorem c9_counterexample :
    (process_task cfg9 env9 st1 "n" "t1").2.2.listModelsCalls = 0
      ∧ (process_task cfg9 env9 st1 "n" "t1").2.2.chatCalls.map (fun c => c.1) = ["m0"]
      ∧ cfg9.model ∉ env9.availableModels
      ∧ "llama3" ∈ env9.availableModels := by
  exact ⟨rfl, rfl, by decide, by decide⟩

/-- The tool-execution loop invokes the bridge once per extracted call,
in extraction order. -/
lemma execToolCalls_calls {J R : Type} (m : MCPClient J R) (l : List (ToolCall J)) :
    (execToolCalls m l).2 = l.map (fun t => (t.name, t.parameters)) := by
  induction l with
  | nil => rfl
  | cons tc tcs ih => simp [execToolCalls, ih]

/-- C3: when the first backend reply contains tool calls and an MCP
client is configured (and both backend calls succeed), `process_task`
invokes the bridge exactly once per extracted call, in the order they
appear in the reply; it makes exactly one additional backend call, whose
history is the primary history followed by the model's reply as an
assistant turn and one system turn carrying the serialized tool results;
the second reply's content supersedes the first as the persisted and
returned final content; and no third backend call is made (the trace
holds exactly two chat calls, whatever the second reply contains). -/
theorem c3_tool_roundtrip {J R Pm : Type} (cfg : Cfg J R) (env : Env J R) (st : St Pm)
    (now task_id : String) (m : MCPClient J R) (r1 r2 : String)
    (tc : ToolCall J) (tcs : List (ToolCall J))
    (hb : st.tm.mcp_bridge = false)
    (ht : (get_task st.tm task_id).isSome)
    (hm : cfg.mcp_client = some m)
    (h1 : env.chat 0 cfg.model (primaryHist cfg st task_id) = .ok r1)
    (hx : extract_tool_calls env.jsonParse r1 = tc :: tcs)
    (h2 : ∀ msgs, env.chat 1 cfg.model msgs = .ok r2) :
    (process_task cfg env st now task_id).2.2.toolCalls
        = (tc :: tcs).map (fun t => (t.name, t.parameters))
      ∧ (process_task cfg env st now task_id).2.2.chatCalls
        = [(cfg.model, primaryHist cfg st task_id),
           (cfg.model, toolHist cfg env m (get_ollama_messages task_id st.mh) r1 (tc :: tcs))]
      ∧ (process_task cfg env st now task_id).1
        = .completed task_id env.msgId "completed" ⟨env.msgId, "agent", [⟨"text", r2⟩]⟩
      ∧ (process_task cfg env st now task_id).2.1.mh.messages
        = st.mh.messages ++ [(task_id, ⟨env.msgId, "agent", [⟨"text", r2⟩]⟩)] := by
  obtain ⟨tk, htk⟩ := Option.isSome_iff_exists.mp ht
  have h1' : env.chat 0 cfg.model (injectTools cfg (get_ollama_messages task_id st.mh))
      = .ok r1 := h1
  have hafter : afterChat cfg env 0 (get_ollama_messages task_id st.mh) r1
      = ⟨.ok r2, toolHist cfg env m (get_ollama_messages task_id st.mh) r1 (tc :: tcs),
         [(cfg.model, injectTools cfg (get_ollama_messages task_id st.mh)),
          (cfg.model, toolHist cfg env m (get_ollama_messages task_id st.mh) r1 (tc :: tcs))],
         (execToolCalls m (tc :: tcs)).2⟩ := by
    simp only [afterChat, hm, hx, h2]
  have ha : attemptOnce cfg env 0 (get_ollama_messages task_id st.mh)
      = ⟨.ok r2, toolHist cfg env m (get_ollama_messages task_id st.mh) r1 (tc :: tcs),
         [(cfg.model, injectTools cfg (get_ollama_messages task_id st.mh)),
          (cfg.model, toolHist cfg env m (get_ollama_messages task_id st.mh) r1 (tc :: tcs))],
         (execToolCalls m (tc :: tcs)).2⟩ := by
    simp only [attemptOnce, h1']
    exact hafter
  have hout : (attemptOnce cfg env 0 (get_ollama_messages task_id st.mh)).outcome
      = .ok r2 := by rw [ha]
  have hloop : processLoop cfg env 3 0 (get_ollama_messages task_id st.mh) none
      = (.ok r2,
         [(cfg.model, injectTools cfg (get_ollama_messages task_id st.mh)),
          (cfg.model, toolHist cfg env m (get_ollama_messages task_id st.mh) r1 (tc :: tcs))],
         (execToolCalls m (tc :: tcs)).2) := by
    rw [show (3 : Nat) = 2 + 1 from rfl, processLoop_succ_ok hout, ha]
  have key : process_task cfg env st now task_id
      = (.completed task_id env.msgId "completed" ⟨env.msgId, "agent", [⟨"text", r2⟩]⟩,
         ⟨(update_task_status st.tm now task_id "completed").2,
          add_message task_id ⟨env.msgId, "agent", [⟨"text", r2⟩]⟩ st.mh⟩,
         ⟨[(cfg.model, injectTools cfg (get_ollama_messages task_id st.mh)),
           (cfg.model, toolHist cfg env m (get_ollama_messages task_id st.mh) r1 (tc :: tcs))],
          (execToolCalls m (tc :: tcs)).2, 0⟩) := by
    simp [process_task, htk, hb, hloop]
  refine ⟨?_, ?_, ?_, ?_⟩
  · rw [key]
    exact execToolCalls_calls m (tc :: tcs)
  · rw [key]
    rfl
  · rw [key]
  · rw [key]
    simp [add_message]

/-- Witness for C3: a concrete run whose first reply embeds the
`get_weather`/Paris tool call and whose second reply itself embeds a
tool-call shape — the bridge is invoked exactly once with the Paris
parameters, only two chat calls happen, and the persisted content is the
second reply. -/
theorem c3_witness :
    (process_task cfg3 env3 st3 "n" "t1").2.2.toolCalls
        = [("get_weather", "\x7b\"location\": \"Paris\"\x7d")]
      ∧ (process_task cfg3 env3 st3 "n" "t1").2.2.chatCalls.length = 2
      ∧ (process_task cfg3 env3 st3 "n" "t1").1
        = .completed "t1" "mid" "completed" ⟨"mid", "agent", [⟨"text", s2reply⟩]⟩
      ∧ extract_tool_calls env3.jsonParse s2reply ≠ [] := by
  have h := c3_tool_roundtrip cfg3 env3 st3 "n" "t1" m3 s1reply s2reply
    ⟨"get_weather", "\x7b\"location\": \"Paris\"\x7d"⟩ []
    rfl (by decide) rfl rfl (by decide) (fun msgs => rfl)
  refine ⟨?_, ?_, h.2.2.1, by decide⟩
  · rw [h.1]
    rfl
  · rw [h.2.1]
    rfl

/-- The non-final contents of a run that forwarded the chunks `l` and
then one final chunk are exactly `l`. -/
lemma nonFinalContents_parts_final (a b x y : String) (msg : Message) (l : List String) :
    nonFinalContents ((l.map (SChunk.part a b)) ++ [SChunk.final x y msg]) = l := by
  induction l with
  | nil => rfl
  | cons c cs ih => simp [nonFinalContents, ih]

/-- C7: in a streaming run whose primary stream completes without error
and that performs no tool round-trip (no MCP client, or no tool call in
the accumulated content), the message store gains exactly one entry — an
agent message for the task whose content is the concatenation of the
non-final chunks' contents, in emission order — and only non-empty
deltas are forwarded as chunks. -/
theorem c7_stream_concat {J R Pm : Type} (cfg : Cfg J R) (env : Env J R) (st : St Pm)
    (now task_id : String)
    (hb : st.tm.mcp_bridge = false)
    (ht : (get_task st.tm task_id).isSome)
    (hne : (env.chatStream 0 cfg.model (primaryHist cfg st task_id)).2 = none)
    (hnt : cfg.mcp_client = none
        ∨ extract_tool_calls env.jsonParse
            (String.join (nonEmptyDeltas
              (env.chatStream 0 cfg.model (primaryHist cfg st task_id)).1)) = []) :
    (process_task_stream cfg env st now task_id).2.mh.messages
        = st.mh.messages
          ++ [(task_id, ⟨env.msgId, "agent",
              [⟨"text",
                String.join (nonFinalContents (process_task_stream cfg env st now task_id).1)⟩]⟩)]
      ∧ ∀ c ∈ nonFinalContents (process_task_stream cfg env st now task_id).1, c ≠ "" := by
  obtain ⟨tk, htk⟩ := Option.isSome_iff_exists.mp ht
  have hne' : (env.chatStream 0 cfg.model
      (injectTools cfg (get_ollama_messages task_id st.mh))).2 = none := hne
  have key : process_task_stream cfg env st now task_id
      = (((nonEmptyDeltas (env.chatStream 0 cfg.model
            (injectTools cfg (get_ollama_messages task_id st.mh))).1).map
              (SChunk.part task_id env.msgId))
          ++ [SChunk.final task_id env.msgId
              ⟨env.msgId, "agent",
               [⟨"text", String.join (nonEmptyDeltas (env.chatStream 0 cfg.model
                  (injectTools cfg (get_ollama_messages task_id st.mh))).1)⟩]⟩],
         ⟨(update_task_status (update_task_status st.tm now task_id "working").2
            now task_id "completed").2,
          add_message task_id
            ⟨env.msgId, "agent",
             [⟨"text", String.join (nonEmptyDeltas (env.chatStream 0 cfg.model
                (injectTools cfg (get_ollama_messages task_id st.mh))).1)⟩]⟩ st.mh⟩) := by
    cases hnt with
    | inl hmc =>
      simp [process_task_stream, htk, hb, hne', hmc]
    | inr hxe =>
      have hxe' : extract_tool_calls env.jsonParse
          (String.join (nonEmptyDeltas (env.chatStream 0 cfg.model
            (injectTools cfg (get_ollama_messages task_id st.mh))).1)) = [] := hxe
      cases hmc : cfg.mcp_client with
      | none => simp [process_task_stream, htk, hb, hne', hmc]
      | some m => simp [process_task_stream, htk, hb, hne', hmc, hxe']
  constructor
  · rw [key]
    simp only [nonFinalContents_parts_final, add_message]
  · rw [key]
    simp only [nonFinalContents_parts_final]
    intro c hc
    rw [nonEmptyDeltas] at hc
    simp only [List.mem_filter, decide_not, Bool.not_eq_eq_eq_not, Bool.not_true,
      decide_eq_false_iff_not] at hc
    exact hc.2

/-- Witness for C7: streaming "Hello ", an empty delta and "world" with
no tool bridge persists one agent message whose content is the
concatenation of the forwarded chunks, namely "Hello world". -/
theorem c7_witness :
    (process_task_stream cfg1 env7 st1 "n" "t1").2.mh.messages
        = st1.mh.messages
          ++ [("t1", ⟨"mid", "agent",
              [⟨"text",
                String.join (nonFinalContents (process_task_stream cfg1 env7 st1 "n" "t1").1)⟩]⟩)]
      ∧ String.join (nonFinalContents (process_task_stream cfg1 env7 st1 "n" "t1").1)
        = "Hello world" := by
  have h := c7_stream_concat cfg1 env7 st1 "n" "t1" rfl (by decide) rfl (Or.inl rfl)
  exact ⟨h.1, by decide⟩

/-- C8 (amended): when the primary stream completes without error having
produced no content at all, no fallback sentence is substituted — the
task is finalized with one persisted agent message whose content is the
empty accumulated content, and no non-final chunk is emitted. -/
theorem c8_no_fallback {J R Pm : Type} (cfg : Cfg J R) (env : Env J R) (st : St Pm)
    (now task_id : String)
    (hb : st.tm.mcp_bridge = false)
    (ht : (get_task st.tm task_id).isSome)
    (hs : (env.chatStream 0 cfg.model (primaryHist cfg st task_id)).2 = none)
    (hemp : nonEmptyDeltas (env.chatStream 0 cfg.model (primaryHist cfg st task_id)).1
        = []) :
    (process_task_stream cfg env st now task_id).2.mh.messages
        = st.mh.messages ++ [(task_id, ⟨env.msgId, "agent", [⟨"text", ""⟩]⟩)]
      ∧ nonFinalContents (process_task_stream cfg env st now task_id).1 = [] := by
  obtain ⟨tk, htk⟩ := Option.isSome_iff_exists.mp ht
  have hs' : (env.chatStream 0 cfg.model
      (injectTools cfg (get_ollama_messages task_id st.mh))).2 = none := hs
  have hemp' : nonEmptyDeltas (env.chatStream 0 cfg.model
      (injectTools cfg (get_ollama_messages task_id st.mh))).1 = [] := hemp
  have hx0 : extract_tool_calls env.jsonParse "" = [] := rfl
  have hj : String.join ([] : List String) = "" := rfl
  have key : process_task_stream cfg env st now task_id
      = ([SChunk.final task_id env.msgId ⟨env.msgId, "agent", [⟨"text", ""⟩]⟩],
         ⟨(update_task_status (update_task_status st.tm now task_id "working").2
            now task_id "completed").2,
          add_message task_id ⟨env.msgId, "agent", [⟨"text", ""⟩]⟩ st.mh⟩) := by
    cases hmc : cfg.mcp_client with
    | none => simp [process_task_stream, htk, hb, hs', hemp', hmc, hj]
    | some m => simp [process_task_stream, htk, hb, hs', hemp', hmc, hj, hx0]
  rw [key]
  exact ⟨by simp [add_message], rfl⟩

/-- C8 counterexample: a run whose primary stream completes immediately
with no deltas persists the agent message with content "" — the empty
accumulated content as-is, not a fixed fallback sentence — refuting the
claimed substitution. -/
theorem c8_counterexample :
    (process_task_stream cfg1 env8 st1 "n" "t1").2.mh.messages
        = [("t1", ⟨"u1", "user", [⟨"text", "hi"⟩]⟩),
           ("t1", ⟨"mid", "agent", [⟨"text", ""⟩]⟩)]
      ∧ nonFinalContents (process_task_stream cfg1 env8 st1 "n" "t1").1 = [] := by
  exact ⟨rfl, rfl⟩

/-- Witness for C8 (amended) at the same concrete input. -/
theorem c8_witness :
    (process_task_stream cfg1 env8 st1 "n" "t1").2.mh.messages
        = st1.mh.messages ++ [("t1", ⟨"mid", "agent", [⟨"text", ""⟩]⟩)] := by
  exact (c8_no_fallback cfg1 env8 st1 "n" "t1" rfl (by decide) rfl rfl).1

end A2A
